import Mathlib

/-!
Shallow embedding of the greeting-e2e verification engine
(src/main.rs and src/greeting_e2e.rs, which contain the same pipeline,
plus the client status handling of src/greeting_api.rs).

Modelling conventions:
  * `HashMap<String, TestTask>` is modelled as an association list
    `List (String × TestTask)`; `hmInsert` models `HashMap::insert`
    (replace the value under an existing key, otherwise append).
  * `DateTime<Utc>` timestamps are abstracted to `Int`; they carry no
    logic in the verified code paths.
  * Network interaction is modelled by a finite trace: the poll loop
    consumes a list of `PollResult`s, one per `get_log_entries` call.
    The overall `tokio::time::timeout` deadline is modelled by
    exhaustion of that trace (within the real 10 s budget only a finite
    number of polls can be observed); if the trace runs out while some
    task is unverified the loop result is `timeoutError`.
  * The `panic!` executed by `verify_tasks` when a poll returns an
    error is modelled by the dedicated outcome `panicked`, distinct
    from every returned error value.
  * The message generator (`Fn() -> GreetingCmd`, impure) is modelled
    as a function from the invocation index, and the receiver call
    `GreetingReceiverClient::send` as a function from the command to
    `Except Unit GreetingResponse`.
-/

namespace GreetingE2E

/-- `GreetingCmd` of src/main.rs (and src/greeting_e2e.rs). -/
structure GreetingCmd where
  external_reference : String
  «to» : String
  «from» : String
  heading : String
  message : String
  created : Int
deriving DecidableEq, Repr

/-- `GreetingLoggEntry` of src/main.rs / src/greeting_api.rs. -/
structure GreetingLoggEntry where
  id : Int
  greeting_id : Int
  message_id : String
  created : Int
deriving DecidableEq, Repr

/-- `GreetingResponse` of src/greeting_receiver.rs. -/
structure GreetingResponse where
  message_id : String
deriving DecidableEq, Repr

/-- `TestTask` of src/main.rs. -/
structure TestTask where
  external_reference : String
  message : GreetingCmd
  message_id : Option String
  greeting_logg_entry : Option GreetingLoggEntry
deriving DecidableEq, Repr

/-- The task registry: `HashMap<String, TestTask>` as an association list. -/
abbrev Registry := List (String × TestTask)

/-- Model of `HashMap::insert`: replace the value stored under the key if it
is present, otherwise append the new binding. -/
def hmInsert : Registry → String → TestTask → Registry
  | [], k, v => [(k, v)]
  | p :: ps, k, v => if p.1 = k then (k, v) :: ps else p :: hmInsert ps k v

/-- `generate_test_tasks` (src/main.rs lines 84-102): produce one `TestTask`
per iteration from the message generator, with `message_id` and
`greeting_logg_entry` unset. -/
def generate_test_tasks (num_iterations : Nat) (gen : Nat → GreetingCmd) :
    List TestTask :=
  (List.range num_iterations).map (fun i =>
    let m := gen i
    { external_reference := m.external_reference
      message := m
      message_id := none
      greeting_logg_entry := none })

/-- Body of the `for task in task_list` loop of `send_messages`
(src/main.rs lines 120-135): a successful send inserts the task under the
returned message id with its `message_id` field set, a failed send is only
logged and the task dropped. -/
def send_step (sendFn : GreetingCmd → Except Unit GreetingResponse)
    (tasks : Registry) (task : TestTask) : Registry :=
  match sendFn task.message with
  | Except.ok v =>
    hmInsert tasks v.message_id { task with message_id := some v.message_id }
  | Except.error _ => tasks

/-- `send_messages` (src/main.rs lines 114-137): fold the send loop over the
task list, starting from the empty registry. -/
def send_messages (task_list : List TestTask)
    (sendFn : GreetingCmd → Except Unit GreetingResponse) : Registry :=
  task_list.foldl (send_step sendFn) []

/-- Result of one `get_log_entries` call as seen by the poll loop. -/
inductive PollResult where
  | page (entries : List GreetingLoggEntry)
  | transportError
deriving DecidableEq, Repr

/-- Outcome of `verify_tasks`: a returned registry, a process-aborting
`panic!`, or the `E2EError::TimeoutError` value. -/
inductive VerifyOutcome where
  | ok (tasks : Registry)
  | panicked
  | timeoutError
deriving DecidableEq, Repr

/-- Body of the `if let Some(entry) = tasks.get_mut(&log_entry.message_id)`
match (src/main.rs lines 176-178): attach the entry to the task stored
under the entry's message id, if any. -/
def processEntry (tasks : Registry) (log_entry : GreetingLoggEntry) : Registry :=
  tasks.map (fun p =>
    if p.1 = log_entry.message_id then
      (p.1, { p.2 with greeting_logg_entry := some log_entry })
    else p)

/-- The `for log_entry in log_entries` loop (src/main.rs lines 175-181):
process each entry in order, unconditionally advancing `current_offset`
to the entry's `id`. -/
def processPage (tasks : Registry) (current_offset : Int)
    (entries : List GreetingLoggEntry) : Registry × Int :=
  entries.foldl
    (fun st log_entry => (processEntry st.1 log_entry, log_entry.id))
    (tasks, current_offset)

/-- The `while tasks.iter().any(|e| e.1.greeting_logg_entry.is_none())`
condition (src/main.rs line 151). -/
def anyUnverified (tasks : Registry) : Bool :=
  tasks.any (fun e => e.2.greeting_logg_entry.isNone)

/-- Every task carries a matched log entry. -/
def allVerified (tasks : Registry) : Bool :=
  tasks.all (fun e => e.2.greeting_logg_entry.isSome)

/-- The poll loop of `verify_tasks` (src/main.rs lines 148-187), instrumented:
the result is the loop outcome, the list of values taken by `current_offset`
after each processed entry, and the number of `get_log_entries` calls made.
Each consumed `PollResult` is one call; an error response triggers the
`panic!` of line 160; an empty page sleeps and re-polls at the same offset;
a non-empty page is processed by `processPage`. When the response trace is
exhausted with unverified tasks remaining the overall timeout fires. -/
def verify_tasks_aux :
    Registry → Int → List PollResult → VerifyOutcome × List Int × Nat
  | tasks, _, [] =>
    if anyUnverified tasks then (VerifyOutcome.timeoutError, [], 0)
    else (VerifyOutcome.ok tasks, [], 0)
  | tasks, current_offset, r :: rest =>
    if anyUnverified tasks then
      match r with
      | PollResult.transportError => (VerifyOutcome.panicked, [], 1)
      | PollResult.page [] =>
        let q := verify_tasks_aux tasks current_offset rest
        (q.1, q.2.1, q.2.2 + 1)
      | PollResult.page (e :: es) =>
        let st := processPage tasks current_offset (e :: es)
        let q := verify_tasks_aux st.1 st.2 rest
        (q.1, (e :: es).map GreetingLoggEntry.id ++ q.2.1, q.2.2 + 1)
    else (VerifyOutcome.ok tasks, [], 0)

/-- `verify_tasks` (src/main.rs lines 139-190): outcome component of the
instrumented loop. `logg_limit` only shapes each HTTP request
(`limit` query parameter) and does not enter the loop logic; the page
contents are supplied by the response trace. -/
def verify_tasks (tasks : Registry) (offset : Int) (logg_limit : Nat)
    (responses : List PollResult) : VerifyOutcome :=
  (verify_tasks_aux tasks offset responses).1

/-- Values taken by `current_offset` after each processed log entry. -/
def offsetTrace (tasks : Registry) (offset : Int)
    (responses : List PollResult) : List Int :=
  (verify_tasks_aux tasks offset responses).2.1

/-- Number of `get_log_entries` calls issued by the loop. -/
def pollCount (tasks : Registry) (offset : Int)
    (responses : List PollResult) : Nat :=
  (verify_tasks_aux tasks offset responses).2.2

/-- Client-side failure of a log API call. -/
inductive ClientError where
  | status (code : Nat)
  | decode
deriving DecidableEq, Repr

/-- `GreetingApiClient::get_last_log_entry` (src/greeting_api.rs lines 28-45):
status 200 parses the body as a `GreetingLoggEntry` (a missing/unparsable
body is a decode failure of `response.json()`), status 204 is the non-error
empty-log result `None`, every other status is an error. The HTTP exchange
is abstracted to its status code and, for 200, the decoded body. -/
def get_last_log_entry (status : Nat) (body : Option GreetingLoggEntry) :
    Except ClientError (Option GreetingLoggEntry) :=
  if status = 200 then
    match body with
    | some v => Except.ok (some v)
    | none => Except.error ClientError.decode
  else if status = 204 then Except.ok none
  else Except.error (ClientError.status status)

/-- Outcome of `execute_e2e_test` as observed by `main`: the returned
registry, an `E2EError::ClientError` value, an `E2EError::TimeoutError`
value, or a process-aborting panic from inside the poll loop. -/
inductive RunOutcome where
  | ok (tasks : Registry)
  | clientError
  | timeoutError
  | panicked
deriving DecidableEq, Repr

/-- Embed a poll-loop outcome into the outcome space of the run. -/
def toRunOutcome : VerifyOutcome → RunOutcome
  | VerifyOutcome.ok t => RunOutcome.ok t
  | VerifyOutcome.panicked => RunOutcome.panicked
  | VerifyOutcome.timeoutError => RunOutcome.timeoutError

/-- `execute_e2e_test` (src/main.rs lines 60-82): discover the starting
offset from `get_last_log_entry` (propagating its error with `?` as an
`E2EError::ClientError`), generate the tasks, send them, then run the
verification loop. `lastStatus`/`lastBody` abstract the `/log/last`
response, `responses` the successive `/log` responses. -/
def execute_e2e_test (lastStatus : Nat) (lastBody : Option GreetingLoggEntry)
    (num_iterations : Nat) (logg_limit : Nat) (gen : Nat → GreetingCmd)
    (sendFn : GreetingCmd → Except Unit GreetingResponse)
    (responses : List PollResult) : RunOutcome :=
  match get_last_log_entry lastStatus lastBody with
  | Except.error _ => RunOutcome.clientError
  | Except.ok lastEntry =>
    let offset : Int :=
      match lastEntry with
      | some v => v.id
      | none => 0
    let task_list := generate_test_tasks num_iterations gen
    let sent_test_tasks := send_messages task_list sendFn
    toRunOutcome (verify_tasks sent_test_tasks offset logg_limit responses)

/-- `E2ETestConfig` as used by src/main.rs. -/
structure E2ETestConfig where
  greeting_receiver_url : String
  greeting_api_url : String
  greeting_log_limit : Nat
  num_iterations : Nat
deriving Repr

/-- Process-level outcome of `main`. -/
inductive MainOutcome where
  | exitZero
  | exitNonZero
  | panicked
deriving DecidableEq, Repr

/-- `main` (src/main.rs lines 24-58): a log-level parse failure or a config
load failure propagates with `?` out of `main` (non-zero exit);
`num_iterations <= 0` logs an error and returns `Ok(())` (zero exit);
otherwise the run outcome is matched: `Ok(v)` prints the summary and
`Err(e)` only logs the error, and `main` returns `Ok(())` (zero exit) in
both cases; a panic inside the loop aborts the process. -/
def main_model (logLevelOk : Bool) (cfgLoad : Except Unit E2ETestConfig)
    (lastStatus : Nat) (lastBody : Option GreetingLoggEntry)
    (gen : Nat → GreetingCmd)
    (sendFn : GreetingCmd → Except Unit GreetingResponse)
    (responses : List PollResult) : MainOutcome :=
  if !logLevelOk then MainOutcome.exitNonZero
  else
    match cfgLoad with
    | Except.error _ => MainOutcome.exitNonZero
    | Except.ok cfg =>
      if cfg.num_iterations ≤ 0 then MainOutcome.exitZero
      else
        match execute_e2e_test lastStatus lastBody cfg.num_iterations
            cfg.greeting_log_limit gen sendFn responses with
        | RunOutcome.ok _ => MainOutcome.exitZero
        | RunOutcome.clientError => MainOutcome.exitZero
        | RunOutcome.timeoutError => MainOutcome.exitZero
        | RunOutcome.panicked => MainOutcome.panicked

/-- Specification predicate: starting from the given registry and offset, the
loop observes a match for every task at the start of some iteration while
consuming the given responses — i.e. either every task is already verified,
or the head response is a page whose processing leads to such a state. -/
inductive Observes : Registry → Int → List PollResult → Prop where
  | now (tasks : Registry) (off : Int) (rs : List PollResult) :
      allVerified tasks = true → Observes tasks off rs
  | later_empty (tasks : Registry) (off : Int) (rs : List PollResult) :
      allVerified tasks = false → Observes tasks off rs →
      Observes tasks off (PollResult.page [] :: rs)
  | later_page (tasks : Registry) (off : Int) (e : GreetingLoggEntry)
      (es : List GreetingLoggEntry) (rs : List PollResult) :
      allVerified tasks = false →
      Observes (processPage tasks off (e :: es)).1
        (processPage tasks off (e :: es)).2 rs →
      Observes tasks off (PollResult.page (e :: es) :: rs)

/-- Specification predicate: the response trace is well formed with respect to
the evolving offset — every non-empty page lists its entries in strictly
ascending sequence-id order, all strictly greater than the offset current
when the page is served; the continuation is judged at the page's last id. -/
inductive GoodTrace : Int → List PollResult → Prop where
  | nil (off : Int) : GoodTrace off []
  | fail (off : Int) (rs : List PollResult) :
      GoodTrace off (PollResult.transportError :: rs)
  | emptyPage (off : Int) (rs : List PollResult) :
      GoodTrace off rs → GoodTrace off (PollResult.page [] :: rs)
  | pageAsc (off : Int) (e : GreetingLoggEntry) (es : List GreetingLoggEntry)
      (rs : List PollResult) :
      List.Chain (· < ·) off ((e :: es).map GreetingLoggEntry.id) →
      GoodTrace (((e :: es).map GreetingLoggEntry.id).getLastD off) rs →
      GoodTrace off (PollResult.page (e :: es) :: rs)

/-- Per-binding frame relation: the key and every field except the matched
log entry are unchanged, and a present matched entry never becomes absent. -/
def taskFrame (p q : String × TestTask) : Prop :=
  q.1 = p.1 ∧
  q.2.external_reference = p.2.external_reference ∧
  q.2.message = p.2.message ∧
  q.2.message_id = p.2.message_id ∧
  (p.2.greeting_logg_entry.isSome = true → q.2.greeting_logg_entry.isSome = true)

/-! Concrete sample inputs used by witnesses and counterexamples. -/

/-- A sample greeting command. -/
def cmd0 : GreetingCmd :=
  { external_reference := "x", «to» := "a", «from» := "b", heading := "h",
    message := "hello", created := 0 }

/-- A second, distinct greeting command. -/
def cmdB : GreetingCmd :=
  { cmd0 with external_reference := "y", message := "hi" }

/-- A log entry with sequence id 1 correlating to message id "k". -/
def entry1 : GreetingLoggEntry :=
  { id := 1, greeting_id := 5, message_id := "k", created := 2 }

/-- A log entry with sequence id 0 correlating to message id "k". -/
def entry0 : GreetingLoggEntry :=
  { id := 0, greeting_id := 4, message_id := "k", created := 1 }

/-- A log entry correlating to a message id matching no sample task. -/
def entryZ : GreetingLoggEntry :=
  { id := 1, greeting_id := 6, message_id := "z", created := 3 }

/-- A sent-but-unverified task correlated to message id "k". -/
def task1 : TestTask :=
  { external_reference := "x", message := cmd0, message_id := some "k",
    greeting_logg_entry := none }

/-- A task with no message id that already carries a matched entry. -/
def task_pre : TestTask :=
  { external_reference := "x", message := cmd0, message_id := none,
    greeting_logg_entry := some entry0 }

/-- An unsent task for `cmd0`. -/
def taskA : TestTask :=
  { external_reference := "x", message := cmd0, message_id := none,
    greeting_logg_entry := none }

/-- An unsent task for `cmdB`. -/
def taskB : TestTask :=
  { external_reference := "y", message := cmdB, message_id := none,
    greeting_logg_entry := none }

/-- A registry holding the single outstanding task `task1` under "k". -/
def reg1 : Registry := [("k", task1)]

/-- The task `task1` once verified against `entry1`. -/
def task1v : TestTask := { task1 with greeting_logg_entry := some entry1 }

/-- The registry `reg1` after a successful verification run over `rs1`. -/
def reg1v : Registry := [("k", task1v)]

/-- A registry whose single task violates the key = message-id convention. -/
def reg_pre : Registry := [("k", task_pre)]

/-- A response trace with one page containing the matching `entry1`. -/
def rs1 : List PollResult := [PollResult.page [entry1]]

/-- A constant message generator. -/
def gen0 : Nat → GreetingCmd := fun _ => cmd0

/-- A receiver that fails every send. -/
def send0 : GreetingCmd → Except Unit GreetingResponse := fun _ => Except.error ()

/-- A receiver that accepts only `cmdB`, assigning message id "m1". -/
def sendB : GreetingCmd → Except Unit GreetingResponse := fun c =>
  if c = cmdB then Except.ok { message_id := "m1" } else Except.error ()

/-- A sample valid configuration requesting one iteration. -/
def cfg1 : E2ETestConfig :=
  { greeting_receiver_url := "u", greeting_api_url := "v",
    greeting_log_limit := 10, num_iterations := 1 }

/-! Helper lemmas. -/

theorem anyUnverified_eq_not_allVerified (tasks : Registry) :
    anyUnverified tasks = !allVerified tasks := by
  induction tasks with
  | nil => rfl
  | cons p ps ih =>
    simp only [anyUnverified, allVerified, List.any_cons, List.all_cons] at *
    cases h : p.2.greeting_logg_entry <;> simp [h, ih]

theorem anyUnverified_false_iff (tasks : Registry) :
    anyUnverified tasks = false ↔ allVerified tasks = true := by
  rw [anyUnverified_eq_not_allVerified]
  cases allVerified tasks <;> simp

theorem anyUnverified_true_iff (tasks : Registry) :
    anyUnverified tasks = true ↔ allVerified tasks = false := by
  rw [anyUnverified_eq_not_allVerified]
  cases allVerified tasks <;> simp

theorem verify_tasks_aux_empty_registry (off : Int) (rs : List PollResult) :
    verify_tasks_aux [] off rs = (VerifyOutcome.ok [], [], 0) := by
  cases rs <;> simp [verify_tasks_aux, anyUnverified]

/-- The claim C8: matching is idempotent — attaching a log entry to the
registry twice yields the same registry as attaching it once, for every
registry and every entry. -/
theorem rematch_idempotent (tasks : Registry) (log_entry : GreetingLoggEntry) :
    processEntry (processEntry tasks log_entry) log_entry =
      processEntry tasks log_entry := by
  induction tasks with
  | nil => rfl
  | cons p ps ih =>
    simp only [processEntry, List.map_cons] at *
    by_cases h : p.1 = log_entry.message_id <;> simp [h, ih]

/-- The claim C2: for zero requested iterations the generated task list is
empty, the registry handed to verification is empty, the verification loop
returns the empty map successfully while issuing zero `get_log_entries`
calls, and the whole engine returns the empty map with no error (for an
empty-log 204 discovery response as well as a populated 200 one). -/
theorem zero_iterations_empty_result_no_polls
    (gen : Nat → GreetingCmd) (sendFn : GreetingCmd → Except Unit GreetingResponse)
    (off : Int) (lim : Nat) (rs : List PollResult)
    (b : Option GreetingLoggEntry) (e : GreetingLoggEntry) :
    generate_test_tasks 0 gen = [] ∧
    send_messages (generate_test_tasks 0 gen) sendFn = [] ∧
    verify_tasks (send_messages (generate_test_tasks 0 gen) sendFn) off lim rs =
      VerifyOutcome.ok [] ∧
    pollCount (send_messages (generate_test_tasks 0 gen) sendFn) off rs = 0 ∧
    execute_e2e_test 204 b 0 lim gen sendFn rs = RunOutcome.ok [] ∧
    execute_e2e_test 200 (some e) 0 lim gen sendFn rs = RunOutcome.ok [] := by
  refine ⟨rfl, rfl, ?_, ?_, ?_, ?_⟩ <;>
    simp [verify_tasks, pollCount, generate_test_tasks, send_messages,
      execute_e2e_test, get_last_log_entry, toRunOutcome,
      verify_tasks_aux_empty_registry]

/-- The claim C5 fails on the code: with one unverified task and a poll that
returns a transport error, the loop outcome is the process-aborting panic,
not the `E2EError::ClientError` value the claim says is surfaced to the
caller. -/
theorem poll_error_panics_counterexample :
    toRunOutcome (verify_tasks reg1 0 10 [PollResult.transportError]) =
      RunOutcome.panicked ∧
    RunOutcome.panicked ≠ RunOutcome.clientError := by
  exact ⟨rfl, by simp⟩

/-- The claim C5 amended: when a `get_log_entries` call inside the loop
returns a transport error (and some task is still unverified), the loop
terminates at once — exactly one call is made, no retry consumes the rest
of the trace — but the failure is a `panic!` that aborts the process
(distinct from the timeout error), not a returned client-error value. -/
theorem poll_error_aborts_loop (tasks : Registry) (off : Int)
    (rest : List PollResult) (h : anyUnverified tasks = true) :
    verify_tasks_aux tasks off (PollResult.transportError :: rest) =
      (VerifyOutcome.panicked, [], 1) ∧
    VerifyOutcome.panicked ≠ VerifyOutcome.timeoutError := by
  refine ⟨?_, by simp⟩
  simp [verify_tasks_aux, h]

theorem poll_error_aborts_loop_witness :
    anyUnverified reg1 = true ∧
    (verify_tasks_aux reg1 0 (PollResult.transportError :: rs1) =
      (VerifyOutcome.panicked, [], 1) ∧
     VerifyOutcome.panicked ≠ VerifyOutcome.timeoutError) :=
  ⟨by decide, poll_error_aborts_loop reg1 0 rs1 (by decide)⟩

/-- The claim C9 fails on the code: a run that ends with a client/transport
error (offset discovery answers HTTP 500) is only logged by `main`, which
then returns `Ok(())` — the process exits zero, where the claim requires a
non-zero exit. -/
theorem exit_zero_on_client_error_counterexample :
    execute_e2e_test 500 none 1 10 gen0 send0 [] = RunOutcome.clientError ∧
    main_model true (Except.ok cfg1) 500 none gen0 send0 [] =
      MainOutcome.exitZero ∧
    MainOutcome.exitZero ≠ MainOutcome.exitNonZero := by
  exact ⟨rfl, rfl, by simp⟩

/-- The claim C9 amended: the process exits non-zero exactly on a log-level
parse failure or a configuration load failure; an invalid iteration count
exits zero after logging; when the run ends in a client/transport error or
a verification timeout, `main` logs the error and still exits zero (and no
summary is printed); a successful run prints the summary and exits zero; a
transport error inside the poll loop aborts the process by panic. -/
theorem exit_codes_amended (cl : Except Unit E2ETestConfig)
    (s : Nat) (b : Option GreetingLoggEntry) (gen : Nat → GreetingCmd)
    (sendFn : GreetingCmd → Except Unit GreetingResponse)
    (rs : List PollResult) (cfg : E2ETestConfig) :
    main_model false cl s b gen sendFn rs = MainOutcome.exitNonZero ∧
    main_model true (Except.error ()) s b gen sendFn rs =
      MainOutcome.exitNonZero ∧
    (cfg.num_iterations = 0 →
      main_model true (Except.ok cfg) s b gen sendFn rs =
        MainOutcome.exitZero) ∧
    (0 < cfg.num_iterations →
      main_model true (Except.ok cfg) s b gen sendFn rs =
        (match execute_e2e_test s b cfg.num_iterations cfg.greeting_log_limit
            gen sendFn rs with
         | RunOutcome.panicked => MainOutcome.panicked
         | _ => MainOutcome.exitZero)) := by
  refine ⟨rfl, rfl, fun h => ?_, fun h => ?_⟩
  · simp [main_model, h]
  · have hh : ¬ cfg.num_iterations ≤ 0 := by omega
    simp only [main_model, Bool.not_true, if_false, hh, if_neg hh]
    cases execute_e2e_test s b cfg.num_iterations cfg.greeting_log_limit
        gen sendFn rs <;> rfl

theorem exit_codes_amended_witness :
    (cfg1.num_iterations = 0 ∨ 0 < cfg1.num_iterations) ∧
    (main_model false (Except.ok cfg1) 204 none gen0 send0 [] =
        MainOutcome.exitNonZero ∧
     main_model true (Except.error ()) 204 none gen0 send0 [] =
        MainOutcome.exitNonZero ∧
     (cfg1.num_iterations = 0 →
       main_model true (Except.ok cfg1) 204 none gen0 send0 [] =
         MainOutcome.exitZero) ∧
     (0 < cfg1.num_iterations →
       main_model true (Except.ok cfg1) 204 none gen0 send0 [] =
         (match execute_e2e_test 204 none cfg1.num_iterations
             cfg1.greeting_log_limit gen0 send0 [] with
          | RunOutcome.panicked => MainOutcome.panicked
          | _ => MainOutcome.exitZero))) :=
  ⟨Or.inr (by decide), exit_codes_amended (Except.ok cfg1) 204 none gen0 send0 [] cfg1⟩

/-- The claim C7: offset discovery returns the entry on HTTP 200, `none` on
HTTP 204 (a non-error result), and an error on any other status; the engine
starts verification at the entry's `id` when one is present and at 0
otherwise; and a discovery error makes the run fail with a client error
whatever the generator, receiver and log responses would have been —
nothing is generated or sent. -/
theorem get_last_log_entry_contract (e : GreetingLoggEntry)
    (b : Option GreetingLoggEntry) (s : Nat) (n : Nat) (lim : Nat)
    (gen : Nat → GreetingCmd)
    (sendFn : GreetingCmd → Except Unit GreetingResponse)
    (rs : List PollResult) :
    get_last_log_entry 200 (some e) = Except.ok (some e) ∧
    get_last_log_entry 204 b = Except.ok none ∧
    (s ≠ 200 → s ≠ 204 → ∃ err, get_last_log_entry s b = Except.error err) ∧
    execute_e2e_test 200 (some e) n lim gen sendFn rs =
      toRunOutcome (verify_tasks
        (send_messages (generate_test_tasks n gen) sendFn) e.id lim rs) ∧
    execute_e2e_test 204 b n lim gen sendFn rs =
      toRunOutcome (verify_tasks
        (send_messages (generate_test_tasks n gen) sendFn) 0 lim rs) ∧
    (s ≠ 200 → s ≠ 204 →
      execute_e2e_test s b n lim gen sendFn rs = RunOutcome.clientError) := by
  refine ⟨rfl, by simp [get_last_log_entry], fun h1 h2 => ?_, rfl,
    by simp [execute_e2e_test, get_last_log_entry], fun h1 h2 => ?_⟩
  · cases b with
    | some v => exact ⟨ClientError.status s, by simp [get_last_log_entry, h1, h2]⟩
    | none => exact ⟨ClientError.status s, by simp [get_last_log_entry, h1, h2]⟩
  · simp [execute_e2e_test, get_last_log_entry, h1, h2]

theorem get_last_log_entry_contract_witness :
    ((500 : Nat) ≠ 200 ∧ (500 : Nat) ≠ 204) ∧
    ((∃ err, get_last_log_entry 500 none = Except.error err) ∧
     execute_e2e_test 500 none 1 10 gen0 send0 [] = RunOutcome.clientError) :=
  ⟨⟨by decide, by decide⟩,
    ⟨(get_last_log_entry_contract entry1 none 500 1 10 gen0 send0 []).2.2.1
        (by decide) (by decide),
     (get_last_log_entry_contract entry1 none 500 1 10 gen0 send0 []).2.2.2.2.2
        (by decide) (by decide)⟩⟩

theorem verify_tasks_aux_ok_allVerified (rs : List PollResult) :
    ∀ (tasks : Registry) (off : Int) (m : Registry),
      (verify_tasks_aux tasks off rs).1 = VerifyOutcome.ok m →
      allVerified m = true := by
  induction rs with
  | nil =>
    intro tasks off m h
    by_cases ha : anyUnverified tasks = true
    · simp [verify_tasks_aux, ha] at h
    · rw [Bool.not_eq_true] at ha
      simp [verify_tasks_aux, ha] at h
      rw [← h]
      exact (anyUnverified_false_iff tasks).mp ha
  | cons r rest ih =>
    intro tasks off m h
    by_cases ha : anyUnverified tasks = true
    · cases r with
      | transportError => simp [verify_tasks_aux, ha] at h
      | page entries =>
        cases entries with
        | nil =>
          simp only [verify_tasks_aux, ha, if_true] at h
          exact ih tasks off m h
        | cons e es =>
          simp only [verify_tasks_aux, ha, if_true] at h
          exact ih _ _ m h
    · rw [Bool.not_eq_true] at ha
      simp [verify_tasks_aux, ha] at h
      rw [← h]
      exact (anyUnverified_false_iff tasks).mp ha

theorem verify_tasks_aux_no_panic (rs : List PollResult) :
    ∀ (tasks : Registry) (off : Int), PollResult.transportError ∉ rs →
      (verify_tasks_aux tasks off rs).1 ≠ VerifyOutcome.panicked := by
  induction rs with
  | nil =>
    intro tasks off _ h
    by_cases ha : anyUnverified tasks = true <;>
      simp [verify_tasks_aux, ha] at h
  | cons r rest ih =>
    intro tasks off hrs h
    have hr : r ≠ PollResult.transportError := fun he => hrs (he ▸ List.mem_cons_self r rest)
    have hrest : PollResult.transportError ∉ rest := fun hm => hrs (List.mem_cons_of_mem r hm)
    by_cases ha : anyUnverified tasks = true
    · cases r with
      | transportError => exact hr rfl
      | page entries =>
        cases entries with
        | nil =>
          simp only [verify_tasks_aux, ha, if_true] at h
          exact ih tasks off hrest h
        | cons e es =>
          simp only [verify_tasks_aux, ha, if_true] at h
          exact ih _ _ hrest h
    · rw [Bool.not_eq_true] at ha
      simp [verify_tasks_aux, ha] at h

theorem verify_tasks_aux_ok_observes (rs : List PollResult) :
    ∀ (tasks : Registry) (off : Int), PollResult.transportError ∉ rs →
      (∃ m, (verify_tasks_aux tasks off rs).1 = VerifyOutcome.ok m) →
      Observes tasks off rs := by
  induction rs with
  | nil =>
    intro tasks off _ h
    obtain ⟨m, hm⟩ := h
    by_cases ha : anyUnverified tasks = true
    · simp [verify_tasks_aux, ha] at hm
    · rw [Bool.not_eq_true] at ha
      exact Observes.now tasks off [] ((anyUnverified_false_iff tasks).mp ha)
  | cons r rest ih =>
    intro tasks off hrs h
    obtain ⟨m, hm⟩ := h
    have hr : r ≠ PollResult.transportError := fun he => hrs (he ▸ List.mem_cons_self r rest)
    have hrest : PollResult.transportError ∉ rest := fun hmm => hrs (List.mem_cons_of_mem r hmm)
    by_cases ha : anyUnverified tasks = true
    · have hv : allVerified tasks = false := (anyUnverified_true_iff tasks).mp ha
      cases r with
      | transportError => exact absurd rfl hr
      | page entries =>
        cases entries with
        | nil =>
          simp only [verify_tasks_aux, ha, if_true] at hm
          exact Observes.later_empty tasks off rest hv (ih tasks off hrest ⟨m, hm⟩)
        | cons e es =>
          simp only [verify_tasks_aux, ha, if_true] at hm
          exact Observes.later_page tasks off e es rest hv (ih _ _ hrest ⟨m, hm⟩)
    · rw [Bool.not_eq_true] at ha
      exact Observes.now tasks off _ ((anyUnverified_false_iff tasks).mp ha)

theorem observes_ok (tasks : Registry) (off : Int) (rs : List PollResult)
    (h : Observes tasks off rs) :
    ∃ m, (verify_tasks_aux tasks off rs).1 = VerifyOutcome.ok m := by
  induction h with
  | now tasks off rs hv =>
    have ha : anyUnverified tasks = false := (anyUnverified_false_iff tasks).mpr hv
    cases rs <;> exact ⟨tasks, by simp [verify_tasks_aux, ha]⟩
  | later_empty tasks off rs hv _ ih =>
    have ha : anyUnverified tasks = true := (anyUnverified_true_iff tasks).mpr hv
    obtain ⟨m, hm⟩ := ih
    exact ⟨m, by simp only [verify_tasks_aux, ha, if_true]; exact hm⟩
  | later_page tasks off e es rs hv _ ih =>
    have ha : anyUnverified tasks = true := (anyUnverified_true_iff tasks).mpr hv
    obtain ⟨m, hm⟩ := ih
    exact ⟨m, by simp only [verify_tasks_aux, ha, if_true]; exact hm⟩

/-- The claim C1: for every registry and every error-free response trace,
the loop returns `Ok` precisely when it observes a match for every task
before the trace (the time budget) is exhausted; a returned registry has
every task matched; and when `Ok` is not reached the outcome is the
timeout error, which carries no partial registry. -/
theorem verify_tasks_ok_iff_all_matched (tasks : Registry) (off : Int)
    (lim : Nat) (rs : List PollResult)
    (hrs : PollResult.transportError ∉ rs) :
    ((∃ m, verify_tasks tasks off lim rs = VerifyOutcome.ok m) ↔
      Observes tasks off rs) ∧
    (∀ m, verify_tasks tasks off lim rs = VerifyOutcome.ok m →
      allVerified m = true) ∧
    (¬ (∃ m, verify_tasks tasks off lim rs = VerifyOutcome.ok m) →
      verify_tasks tasks off lim rs = VerifyOutcome.timeoutError) := by
  refine ⟨⟨fun h => verify_tasks_aux_ok_observes rs tasks off hrs h,
      fun h => observes_ok tasks off rs h⟩,
    fun m hm => verify_tasks_aux_ok_allVerified rs tasks off m hm, ?_⟩
  intro hno
  unfold verify_tasks at hno ⊢
  cases hv : (verify_tasks_aux tasks off rs).1 with
  | ok m => exact absurd ⟨m, hv⟩ hno
  | panicked => exact absurd hv (verify_tasks_aux_no_panic rs tasks off hrs)
  | timeoutError => rfl

theorem verify_tasks_ok_iff_all_matched_witness :
    (PollResult.transportError ∉ rs1) ∧
    (((∃ m, verify_tasks reg1 0 10 rs1 = VerifyOutcome.ok m) ↔
        Observes reg1 0 rs1) ∧
     (∀ m, verify_tasks reg1 0 10 rs1 = VerifyOutcome.ok m →
        allVerified m = true) ∧
     (¬ (∃ m, verify_tasks reg1 0 10 rs1 = VerifyOutcome.ok m) →
        verify_tasks reg1 0 10 rs1 = VerifyOutcome.timeoutError)) :=
  ⟨by decide, verify_tasks_ok_iff_all_matched reg1 0 10 rs1 (by decide)⟩

theorem processPage_cons (tasks : Registry) (off : Int)
    (e : GreetingLoggEntry) (es : List GreetingLoggEntry) :
    processPage tasks off (e :: es) =
      processPage (processEntry tasks e) e.id es := rfl

theorem processPage_offset (es : List GreetingLoggEntry) :
    ∀ (tasks : Registry) (off : Int),
      (processPage tasks off es).2 =
        (es.map GreetingLoggEntry.id).getLastD off := by
  induction es with
  | nil => intro tasks off; rfl
  | cons e es ih =>
    intro tasks off
    rw [processPage_cons, ih, List.map_cons, List.getLastD_cons]

theorem chain_le_append (a : Int) (l₁ l₂ : List Int)
    (h₁ : List.Chain (· ≤ ·) a l₁)
    (h₂ : List.Chain (· ≤ ·) (l₁.getLastD a) l₂) :
    List.Chain (· ≤ ·) a (l₁ ++ l₂) := by
  induction l₁ generalizing a with
  | nil => simpa using h₂
  | cons b l ih =>
    rw [List.chain_cons] at h₁
    rw [List.getLastD_cons] at h₂
    rw [List.cons_append, List.chain_cons]
    exact ⟨h₁.1, ih b h₁.2 h₂⟩

/-- The claim C3: along one verification run over a well-formed response
trace (each served page ascending and strictly past the offset it was
requested from), the successive values of `current_offset` — starting from
the initial offset — form a non-decreasing chain. -/
theorem current_offset_monotone (tasks : Registry) (off : Int)
    (rs : List PollResult) (h : GoodTrace off rs) :
    List.Chain (· ≤ ·) off (offsetTrace tasks off rs) := by
  induction h generalizing tasks with
  | nil off =>
    by_cases ha : anyUnverified tasks = true <;>
      simp [offsetTrace, verify_tasks_aux, ha]
  | fail off rs =>
    by_cases ha : anyUnverified tasks = true <;>
      simp [offsetTrace, verify_tasks_aux, ha]
  | emptyPage off rs hg ih =>
    by_cases ha : anyUnverified tasks = true
    · simpa [offsetTrace, verify_tasks_aux, ha] using ih tasks
    · simp [offsetTrace, verify_tasks_aux, ha]
  | pageAsc off e es rs hchain hg ih =>
    by_cases ha : anyUnverified tasks = true
    · simp only [offsetTrace, verify_tasks_aux, ha, if_true]
      rw [processPage_offset (e :: es) tasks off]
      refine chain_le_append off ((e :: es).map GreetingLoggEntry.id) _
        (List.Chain.imp (fun a b hab => le_of_lt hab) hchain) ?_
      have h2 := ih (processPage tasks off (e :: es)).1
      unfold offsetTrace at h2
      exact h2
    · simp [offsetTrace, verify_tasks_aux, ha]

theorem current_offset_monotone_witness :
    GoodTrace 0 rs1 ∧
    List.Chain (· ≤ ·) 0 (offsetTrace reg1 0 rs1) := by
  have hg : GoodTrace 0 rs1 :=
    GoodTrace.pageAsc 0 entry1 [] []
      (by simp [entry1]) (GoodTrace.nil _)
  exact ⟨hg, current_offset_monotone reg1 0 rs1 hg⟩

theorem processEntry_no_match (tasks : Registry)
    (log_entry : GreetingLoggEntry)
    (h : ∀ p ∈ tasks, p.1 ≠ log_entry.message_id) :
    processEntry tasks log_entry = tasks := by
  induction tasks with
  | nil => rfl
  | cons p ps ih =>
    have hp : p.1 ≠ log_entry.message_id := h p (List.mem_cons_self p ps)
    have ht : processEntry ps log_entry = ps :=
      ih (fun q hq => h q (List.mem_cons_of_mem p hq))
    simp only [processEntry, List.map_cons] at ht ⊢
    rw [if_neg hp, ht]

theorem processPage_no_match (es : List GreetingLoggEntry) :
    ∀ (tasks : Registry) (off : Int),
      (∀ le ∈ es, ∀ p ∈ tasks, p.1 ≠ GreetingLoggEntry.message_id le) →
      (processPage tasks off es).1 = tasks := by
  induction es with
  | nil => intro tasks off _; rfl
  | cons e es ih =>
    intro tasks off h
    rw [processPage_cons,
      processEntry_no_match tasks e (h e (List.mem_cons_self e es))]
    exact ih tasks e.id (fun le hle p hp =>
      h le (List.mem_cons_of_mem e hle) p hp)

theorem getLastD_mem (l : List Int) :
    ∀ (a d : Int), (a :: l).getLastD d ∈ a :: l := by
  induction l with
  | nil => intro a d; simp
  | cons b l ih =>
    intro a d
    rw [List.getLastD_cons]
    exact List.mem_cons_of_mem a (ih b a)

theorem chain'_le_getLastD (l : List Int) :
    ∀ (a d : Int), List.Chain' (· ≤ ·) (a :: l) →
      ∀ x ∈ a :: l, x ≤ (a :: l).getLastD d := by
  induction l with
  | nil =>
    intro a d _ x hx
    simp at hx
    simp [hx]
  | cons b l ih =>
    intro a d hc x hx
    rw [List.chain'_cons] at hc
    rw [List.getLastD_cons]
    rcases List.mem_cons.mp hx with hxa | hxm
    · rw [hxa]
      exact le_trans hc.1 (ih b a hc.2 b (List.mem_cons_self b l))
    · exact ih b a hc.2 x hxm

/-- The claim C4: a non-empty page none of whose entries matches any task in
the registry leaves the registry unchanged and still advances
`current_offset` to the maximum sequence id present in the page (the page
being served in ascending id order). -/
theorem unmatched_page_advances_offset (tasks : Registry) (off : Int)
    (e : GreetingLoggEntry) (es : List GreetingLoggEntry)
    (hasc : List.Chain' (· ≤ ·) ((e :: es).map GreetingLoggEntry.id))
    (hnomatch : ∀ le ∈ e :: es, ∀ p ∈ tasks,
      p.1 ≠ GreetingLoggEntry.message_id le) :
    (processPage tasks off (e :: es)).1 = tasks ∧
    (processPage tasks off (e :: es)).2 ∈
      (e :: es).map GreetingLoggEntry.id ∧
    (∀ i ∈ (e :: es).map GreetingLoggEntry.id,
      i ≤ (processPage tasks off (e :: es)).2) := by
  refine ⟨processPage_no_match (e :: es) tasks off hnomatch, ?_, ?_⟩
  · rw [processPage_offset, List.map_cons]
    exact getLastD_mem _ e.id off
  · intro i hi
    rw [processPage_offset, List.map_cons]
    rw [List.map_cons] at hasc hi
    exact chain'_le_getLastD _ e.id off hasc i hi

theorem unmatched_page_advances_offset_witness :
    (List.Chain' (· ≤ ·) ([entryZ].map GreetingLoggEntry.id) ∧
     (∀ le ∈ [entryZ], ∀ p ∈ reg1, p.1 ≠ GreetingLoggEntry.message_id le)) ∧
    ((processPage reg1 0 [entryZ]).1 = reg1 ∧
     (processPage reg1 0 [entryZ]).2 ∈ [entryZ].map GreetingLoggEntry.id ∧
     (∀ i ∈ [entryZ].map GreetingLoggEntry.id,
       i ≤ (processPage reg1 0 [entryZ]).2)) :=
  ⟨⟨by simp, by decide⟩,
    unmatched_page_advances_offset reg1 0 entryZ [] (by simp) (by decide)⟩

theorem hmInsert_mem : ∀ (m : Registry) (k : String) (v : TestTask)
    (p : String × TestTask), p ∈ hmInsert m k v → p = (k, v) ∨ p ∈ m := by
  intro m k v
  induction m with
  | nil =>
    intro p h
    simp [hmInsert] at h
    exact Or.inl h
  | cons q qs ih =>
    intro p h
    by_cases hk : q.1 = k
    · simp only [hmInsert, if_pos hk] at h
      rcases List.mem_cons.mp h with h1 | h1
      · exact Or.inl h1
      · exact Or.inr (List.mem_cons_of_mem q h1)
    · simp only [hmInsert, if_neg hk] at h
      rcases List.mem_cons.mp h with h1 | h1
      · exact Or.inr (h1 ▸ List.mem_cons_self q qs)
      · rcases ih p h1 with h2 | h2
        · exact Or.inl h2
        · exact Or.inr (List.mem_cons_of_mem q h2)

theorem hmInsert_key_present : ∀ (m : Registry) (k : String) (v : TestTask),
    ∃ t, (k, t) ∈ hmInsert m k v := by
  intro m k v
  induction m with
  | nil => exact ⟨v, by simp [hmInsert]⟩
  | cons q qs ih =>
    by_cases hk : q.1 = k
    · exact ⟨v, by simp [hmInsert, hk]⟩
    · obtain ⟨t, ht⟩ := ih
      exact ⟨t, by
        simp only [hmInsert, if_neg hk]
        exact List.mem_cons_of_mem q ht⟩

theorem hmInsert_key_stable (kp k : String) (v : TestTask) :
    ∀ (m : Registry), (∃ t, (k, t) ∈ m) →
      ∃ t, (k, t) ∈ hmInsert m kp v := by
  by_cases hk : k = kp
  · intro m _
    subst hk
    exact hmInsert_key_present m k v
  · intro m
    induction m with
    | nil =>
      intro h
      obtain ⟨t, ht⟩ := h
      exact absurd ht (List.not_mem_nil (k, t))
    | cons q qs ih =>
      intro h
      obtain ⟨t, ht⟩ := h
      by_cases hq : q.1 = kp
      · rcases List.mem_cons.mp ht with h1 | h1
        · exact absurd (by rw [← h1] at hq; exact hq) hk
        · exact ⟨t, by
            simp only [hmInsert, if_pos hq]
            exact List.mem_cons_of_mem _ h1⟩
      · rcases List.mem_cons.mp ht with h1 | h1
        · exact ⟨t, by
            simp only [hmInsert, if_neg hq]
            exact h1 ▸ List.mem_cons_self q _⟩
        · obtain ⟨t2, ht2⟩ := ih ⟨t, h1⟩
          exact ⟨t2, by
            simp only [hmInsert, if_neg hq]
            exact List.mem_cons_of_mem q ht2⟩

theorem foldl_send_mem (sendFn : GreetingCmd → Except Unit GreetingResponse) :
    ∀ (L : List TestTask) (acc : Registry) (p : String × TestTask),
      p ∈ L.foldl (send_step sendFn) acc →
      p ∈ acc ∨ ∃ task ∈ L, ∃ r, sendFn task.message = Except.ok r ∧
        p.1 = r.message_id ∧
        p.2 = { task with message_id := some r.message_id } := by
  intro L
  induction L with
  | nil => intro acc p h; exact Or.inl h
  | cons t ts ih =>
    intro acc p h
    rw [List.foldl_cons] at h
    rcases ih (send_step sendFn acc t) p h with h1 | ⟨task, htask, r, hr, hk, hv⟩
    · unfold send_step at h1
      cases hs : sendFn t.message with
      | ok v =>
        rw [hs] at h1
        rcases hmInsert_mem acc v.message_id _ p h1 with he | hm
        · right
          exact ⟨t, List.mem_cons_self t ts, v, hs, by rw [he], by rw [he]⟩
        · exact Or.inl hm
      | error u =>
        rw [hs] at h1
        exact Or.inl h1
    · right
      exact ⟨task, List.mem_cons_of_mem t htask, r, hr, hk, hv⟩

theorem foldl_send_key_stable (sendFn : GreetingCmd → Except Unit GreetingResponse) :
    ∀ (L : List TestTask) (acc : Registry) (k : String),
      (∃ t, (k, t) ∈ acc) → ∃ t, (k, t) ∈ L.foldl (send_step sendFn) acc := by
  intro L
  induction L with
  | nil => intro acc k h; exact h
  | cons t ts ih =>
    intro acc k h
    rw [List.foldl_cons]
    apply ih
    unfold send_step
    cases hs : sendFn t.message with
    | ok v => exact hmInsert_key_stable v.message_id k _ acc h
    | error u => exact h

theorem foldl_send_success_key (sendFn : GreetingCmd → Except Unit GreetingResponse) :
    ∀ (L : List TestTask) (acc : Registry) (task : TestTask),
      task ∈ L → ∀ r, sendFn task.message = Except.ok r →
      ∃ t, (r.message_id, t) ∈ L.foldl (send_step sendFn) acc := by
  intro L
  induction L with
  | nil =>
    intro acc task h
    exact absurd h (List.not_mem_nil task)
  | cons t ts ih =>
    intro acc task hmem r hok
    rw [List.foldl_cons]
    rcases List.mem_cons.mp hmem with h1 | h1
    · apply foldl_send_key_stable sendFn ts
      subst h1
      unfold send_step
      rw [hok]
      exact hmInsert_key_present acc r.message_id _
    · exact ih (send_step sendFn acc t) task h1 r hok

/-- The claim C6: every binding of the registry returned by `send_messages`
originates from a task whose send succeeded (so a task whose send failed is
never inserted, never appears, and is never counted by the verification
loop's termination condition, which ranges over the registry only); a task
whose send failed has no binding carrying its command; and every task whose
send succeeded does get a binding under its returned message id — the run
continues past failures. -/
theorem send_failures_excluded (task_list : List TestTask)
    (sendFn : GreetingCmd → Except Unit GreetingResponse) :
    (∀ p ∈ send_messages task_list sendFn, ∃ task ∈ task_list, ∃ r,
        sendFn task.message = Except.ok r ∧ p.1 = r.message_id ∧
        p.2 = { task with message_id := some r.message_id }) ∧
    (∀ task ∈ task_list, ∀ u, sendFn task.message = Except.error u →
        ∀ p ∈ send_messages task_list sendFn, p.2.message ≠ task.message) ∧
    (∀ task ∈ task_list, ∀ r, sendFn task.message = Except.ok r →
        ∃ t, (r.message_id, t) ∈ send_messages task_list sendFn) := by
  refine ⟨?_, ?_, ?_⟩
  · intro p hp
    rcases foldl_send_mem sendFn task_list [] p hp with h | h
    · exact absurd h (List.not_mem_nil p)
    · exact h
  · intro task htask u hu p hp heq
    rcases foldl_send_mem sendFn task_list [] p hp with h | ⟨task2, _, r, hr, _, hv⟩
    · exact absurd h (List.not_mem_nil p)
    · have h2 : task.message = task2.message := by rw [← heq, hv]
      rw [← h2] at hr
      rw [hu] at hr
      exact Except.noConfusion hr
  · intro task htask r hr
    exact foldl_send_success_key sendFn task_list [] task htask r hr

theorem send_failures_excluded_witness :
    (taskB ∈ [taskA, taskB] ∧
     sendB taskB.message = Except.ok { message_id := "m1" }) ∧
    (∃ t, ("m1", t) ∈ send_messages [taskA, taskB] sendB) :=
  ⟨⟨by decide, rfl⟩,
    (send_failures_excluded [taskA, taskB] sendB).2.2 taskB (by decide)
      { message_id := "m1" } rfl⟩

theorem taskFrame_refl (p : String × TestTask) : taskFrame p p :=
  ⟨rfl, rfl, rfl, rfl, fun h => h⟩

theorem taskFrame_trans {p q r : String × TestTask}
    (h1 : taskFrame p q) (h2 : taskFrame q r) : taskFrame p r := by
  obtain ⟨a1, b1, c1, d1, e1⟩ := h1
  obtain ⟨a2, b2, c2, d2, e2⟩ := h2
  exact ⟨a2.trans a1, b2.trans b1, c2.trans c1, d2.trans d1,
    fun h => e2 (e1 h)⟩

theorem forall2_frame_refl (l : Registry) : List.Forall₂ taskFrame l l :=
  List.forall₂_same.mpr (fun p _ => taskFrame_refl p)

theorem forall2_frame_trans : ∀ {l1 l2 l3 : Registry},
    List.Forall₂ taskFrame l1 l2 → List.Forall₂ taskFrame l2 l3 →
    List.Forall₂ taskFrame l1 l3 := by
  intro l1 l2 l3 h1
  induction h1 generalizing l3 with
  | nil =>
    intro h2
    cases h2
    exact List.Forall₂.nil
  | cons hpq h ih =>
    intro h2
    cases h2 with
    | cons hqr h2t => exact List.Forall₂.cons (taskFrame_trans hpq hqr) (ih h2t)

theorem frame_processEntry (tasks : Registry) (log_entry : GreetingLoggEntry) :
    List.Forall₂ taskFrame tasks (processEntry tasks log_entry) := by
  induction tasks with
  | nil => exact List.Forall₂.nil
  | cons p ps ih =>
    simp only [processEntry, List.map_cons] at ih ⊢
    by_cases h : p.1 = log_entry.message_id
    · rw [if_pos h]
      exact List.Forall₂.cons ⟨rfl, rfl, rfl, rfl, fun _ => rfl⟩ ih
    · rw [if_neg h]
      exact List.Forall₂.cons (taskFrame_refl p) ih

theorem frame_processPage (es : List GreetingLoggEntry) :
    ∀ (tasks : Registry) (off : Int),
      List.Forall₂ taskFrame tasks (processPage tasks off es).1 := by
  induction es with
  | nil => intro tasks off; exact forall2_frame_refl tasks
  | cons e es ih =>
    intro tasks off
    rw [processPage_cons]
    exact forall2_frame_trans (frame_processEntry tasks e)
      (ih (processEntry tasks e) e.id)

theorem frame_loop (rs : List PollResult) :
    ∀ (tasks : Registry) (off : Int) (m : Registry),
      (verify_tasks_aux tasks off rs).1 = VerifyOutcome.ok m →
      List.Forall₂ taskFrame tasks m := by
  induction rs with
  | nil =>
    intro tasks off m h
    by_cases ha : anyUnverified tasks = true
    · simp [verify_tasks_aux, ha] at h
    · rw [Bool.not_eq_true] at ha
      simp [verify_tasks_aux, ha] at h
      rw [← h]
      exact forall2_frame_refl tasks
  | cons r rest ih =>
    intro tasks off m h
    by_cases ha : anyUnverified tasks = true
    · cases r with
      | transportError => simp [verify_tasks_aux, ha] at h
      | page entries =>
        cases entries with
        | nil =>
          simp only [verify_tasks_aux, ha, if_true] at h
          exact ih tasks off m h
        | cons e es =>
          simp only [verify_tasks_aux, ha, if_true] at h
          exact forall2_frame_trans (frame_processPage (e :: es) tasks off)
            (ih _ _ m h)
    · rw [Bool.not_eq_true] at ha
      simp [verify_tasks_aux, ha] at h
      rw [← h]
      exact forall2_frame_refl tasks

theorem forall2_frame_keys : ∀ {l1 l2 : Registry},
    List.Forall₂ taskFrame l1 l2 → l2.map Prod.fst = l1.map Prod.fst := by
  intro l1 l2 h
  induction h with
  | nil => rfl
  | cons hpq h ih => simp only [List.map_cons, ih, hpq.1]

theorem forall2_frame_message_id : ∀ {l1 l2 : Registry},
    List.Forall₂ taskFrame l1 l2 →
    (∀ p ∈ l1, p.2.message_id = some p.1) →
    ∀ q ∈ l2, q.2.message_id = some q.1 := by
  intro l1 l2 h
  induction h with
  | nil =>
    intro _ q hq
    exact absurd hq (List.not_mem_nil q)
  | cons hpq ht ih =>
    intro hall q hq
    rcases List.mem_cons.mp hq with h1 | h1
    · subst h1
      rw [hpq.2.2.2.1, hpq.1]
      exact hall _ (List.mem_cons_self _ _)
    · exact ih (fun p hp => hall p (List.mem_cons_of_mem _ hp)) q h1

theorem generate_test_tasks_fields (n : Nat) (gen : Nat → GreetingCmd) :
    ∀ task ∈ generate_test_tasks n gen,
      task.message_id = none ∧ task.greeting_logg_entry = none := by
  intro task h
  simp only [generate_test_tasks, List.mem_map] at h
  obtain ⟨i, _, hi⟩ := h
  rw [← hi]
  exact ⟨rfl, rfl⟩

theorem send_messages_invariant
    (sendFn : GreetingCmd → Except Unit GreetingResponse)
    (L : List TestTask) (hL : ∀ task ∈ L, task.greeting_logg_entry = none) :
    ∀ p ∈ send_messages L sendFn,
      p.2.message_id = some p.1 ∧ p.2.greeting_logg_entry = none := by
  intro p hp
  rcases foldl_send_mem sendFn L [] p hp with h | ⟨task, htask, r, hr, hk, hv⟩
  · exact absurd h (List.not_mem_nil p)
  · constructor
    · rw [hv, hk]
    · rw [hv]
      exact hL task htask

/-- The claim C10 fails as stated for arbitrary input registries: with an
input registry whose only task has no message id but already carries a
matched entry, `verify_tasks` succeeds immediately and returns that
registry unchanged, and the returned task's message id is not the key it
is stored under. -/
theorem frame_counterexample :
    verify_tasks reg_pre 0 10 [] = VerifyOutcome.ok reg_pre ∧
    ("k", task_pre) ∈ reg_pre ∧
    task_pre.message_id ≠ some "k" := by
  exact ⟨rfl, List.mem_cons_self _ _, by decide⟩

/-- The claim C10 amended: on success the returned map has exactly the input
keys in order, each task's external reference, command and message id are
unchanged, and a matched entry is never removed (absent can only become
present); when additionally every input task carries its key as message id
— as holds for every registry produced by `send_messages` over generated
tasks, whose bindings also all start unmatched — the returned tasks carry
their keys as message ids too. -/
theorem verify_frame_preserving (tasks : Registry) (off : Int) (lim : Nat)
    (rs : List PollResult) (m : Registry)
    (hok : verify_tasks tasks off lim rs = VerifyOutcome.ok m) :
    List.Forall₂ taskFrame tasks m ∧
    m.map Prod.fst = tasks.map Prod.fst ∧
    ((∀ p ∈ tasks, p.2.message_id = some p.1) →
      ∀ q ∈ m, q.2.message_id = some q.1) ∧
    (∀ (n : Nat) (gen : Nat → GreetingCmd)
        (sendFn : GreetingCmd → Except Unit GreetingResponse),
      ∀ p ∈ send_messages (generate_test_tasks n gen) sendFn,
        p.2.message_id = some p.1 ∧ p.2.greeting_logg_entry = none) := by
  have hf : List.Forall₂ taskFrame tasks m := frame_loop rs tasks off m hok
  exact ⟨hf, forall2_frame_keys hf, forall2_frame_message_id hf,
    fun n gen sendFn => send_messages_invariant sendFn (generate_test_tasks n gen)
      (fun task h => (generate_test_tasks_fields n gen task h).2)⟩

theorem verify_frame_preserving_witness :
    verify_tasks reg1 0 10 rs1 = VerifyOutcome.ok reg1v ∧
    (List.Forall₂ taskFrame reg1 reg1v ∧
     reg1v.map Prod.fst = reg1.map Prod.fst ∧
     ((∀ p ∈ reg1, p.2.message_id = some p.1) →
       ∀ q ∈ reg1v, q.2.message_id = some q.1) ∧
     (∀ (n : Nat) (gen : Nat → GreetingCmd)
         (sendFn : GreetingCmd → Except Unit GreetingResponse),
       ∀ p ∈ send_messages (generate_test_tasks n gen) sendFn,
         p.2.message_id = some p.1 ∧ p.2.greeting_logg_entry = none)) :=
  ⟨by decide, verify_frame_preserving reg1 0 10 rs1 reg1v (by decide)⟩

end GreetingE2E
